import Mathlib

/-!
Verification of the ASTERIX decoder in `asterix.go` (repository
`geoffyoungs/good-listener`).  The decoder operates on untrusted byte
buffers; we model a byte buffer as a `List Nat` whose elements are the
byte values (well-formed buffers have all elements `< 256`).  Go's
machine integers are modelled by `Nat`/`Int` with explicit wrap-around
(`% 2 ^ w`) where the source relies on fixed-width behaviour.
-/

/-- Big-endian 16-bit read, `binary.BigEndian.Uint16` on two bytes. -/
def u16be (a b : Nat) : Nat := a * 256 + b

/-- Interpret the low 16 bits of an integer as a signed 16-bit value
(two's complement); models Go's `int16` conversion / wrap-around. -/
def toInt16 (x : Int) : Int :=
  if x % 65536 < 32768 then x % 65536 else x % 65536 - 65536

/-- The 16-bit two's-complement bit pattern (0..65535) of an `int16` value. -/
def bits16 (x : Int) : Nat := (x % 65536).toNat

/-- Go `int16` bitwise NOT (`^x`). -/
def int16Not (x : Int) : Int := toInt16 (-x - 1)

/-- Go `int16` addition with wrap-around. -/
def int16Add (x y : Int) : Int := toInt16 (x + y)

/-- Go `int16` bitwise AND. -/
def int16And (x y : Int) : Int := toInt16 ((bits16 x &&& bits16 y : Nat) : Int)

/-- Go `int16` negation with wrap-around. -/
def int16Neg (x : Int) : Int := toInt16 (-x)

/-- Go `int16` arithmetic shift right (floor division by a power of two). -/
def int16Shr (x : Int) (k : Nat) : Int := Int.fdiv x (2 ^ k)

/-- Interpret the low 32 bits as a signed 32-bit value; models Go's
`int32(binary.BigEndian.Uint32(...))`. -/
def toInt32 (x : Int) : Int :=
  if x % 4294967296 < 2147483648 then x % 4294967296 else x % 4294967296 - 4294967296

/-- The standard base64 alphabet character at index `n`. -/
def b64Char (n : Nat) : Char :=
  "ABCDEFGHIJKLMNOPQRSTUVWXYZabcdefghijklmnopqrstuvwxyz0123456789+/".toList.getD n 'A'

/-- Standard base64 encoding of a byte list (`base64.StdEncoding.EncodeToString`). -/
def base64Encode : List Nat → String
  | [] => ""
  | [a] => String.mk [b64Char (a / 4), b64Char (a % 4 * 16), '=', '=']
  | [a, b] => String.mk [b64Char (a / 4), b64Char (a % 4 * 16 + b / 16), b64Char (b % 16 * 4), '=']
  | a :: b :: c :: rest =>
    String.mk [b64Char (a / 4), b64Char (a % 4 * 16 + b / 16),
               b64Char (b % 16 * 4 + c / 64), b64Char (c % 64)] ++ base64Encode rest

/-- Zero-padded 3-digit decimal formatting, Go's `%03d`. -/
def pad3 (n : Nat) : String :=
  if n < 10 then "00" ++ toString n
  else if n < 100 then "0" ++ toString n
  else toString n

/-- Zero-padded 4-digit octal formatting, Go's `%04o` (values `< 4096`). -/
def oct4 (n : Nat) : String :=
  let ds := Nat.toDigits 8 n
  String.mk (List.replicate (4 - ds.length) '0') ++ String.mk ds

/-- Single uppercase hexadecimal digit. -/
def hexDigit (n : Nat) : Char := "0123456789ABCDEF".toList.getD n '0'

/-- Fixed-width uppercase hexadecimal formatting, Go's `%06X` (with `d = 6`). -/
def hexPad : Nat → Nat → String
  | _, 0 => ""
  | n, d + 1 => (hexPad (n / 16) d).push (hexDigit (n % 16))

/-- The ASTERIX detector `isAsterixMessage`: cheap heuristic deciding
whether a payload is plausibly an ASTERIX message. -/
def isAsterixMessage (payload : List Nat) : Bool :=
  if payload.length < 3 then false
  else if payload.getD 0 0 = 0 ∨ 250 < payload.getD 0 0 then false
  else if u16be (payload.getD 1 0) (payload.getD 2 0) < 3 ∨
          payload.length + 100 < u16be (payload.getD 1 0) (payload.getD 2 0) then false
  else if u16be (payload.getD 1 0) (payload.getD 2 0) = payload.length ∨
          (3 ≤ payload.length ∧
           u16be (payload.getD 1 0) (payload.getD 2 0) ≤ payload.length * 2) then true
  else false

/-- `parseFSPEC`'s loop: walks the bytes with index `i`, accumulating the
bitmap; stops after a byte with clear FX bit, or once `i ≥ 10` (11 bytes). -/
def parseFSPECAux : List Nat → Nat → List Nat → List Nat × Nat
  | [], _, acc => (acc, acc.length)
  | b :: rest, i, acc =>
    if b % 2 = 0 then (acc ++ [b], i + 1)
    else if 10 ≤ i then (acc ++ [b], i + 1)
    else parseFSPECAux rest (i + 1) (acc ++ [b])

/-- `parseFSPEC`: parse the variable-length FSPEC presence bitmap, returning
the bitmap bytes and the number of bytes consumed. -/
def parseFSPEC (data : List Nat) : List Nat × Nat := parseFSPECAux data 0 []

/-- The forward scan inside `estimateFieldSize`: first index `i < 20`
(and `i <` length) whose byte has a clear FX bit, returning `i + 1`. -/
def findClearFX : List Nat → Nat → Option Nat
  | [], _ => none
  | b :: rest, i =>
    if 20 ≤ i then none
    else if b % 2 = 0 then some (i + 1)
    else findClearFX rest (i + 1)

/-- `estimateFieldSize`: heuristic size of an unknown field. -/
def estimateFieldSize (data : List Nat) : Nat :=
  if data.length = 0 then 0
  else if data.getD 0 0 % 2 ≠ 0 ∧ 1 < data.length then
    match findClearFX data 0 with
    | some s => s
    | none => if 2 ≤ data.length then 2 else 1
  else if 2 ≤ data.length then 2 else 1

/-- The heterogeneous values stored in a block's `data_items`
(`map[string]interface{}` values in the source): Go ints, strings, bools,
exact float64 results (all scale factors in the source are dyadic, so every
floating-point computation is exact and is modelled in `ℚ`), and nested
string-keyed records. -/
inductive FieldValue where
  | vInt : Int → FieldValue
  | vStr : String → FieldValue
  | vBool : Bool → FieldValue
  | vRat : ℚ → FieldValue
  | vMap : List (String × FieldValue) → FieldValue

/-- The fixed 64-entry 6-bit character alphabet of `decodeAircraftID`. -/
def acftChars : List Char :=
  "?ABCDEFGHIJKLMNOPQRSTUVWXYZ????? ???????????????0123456789??????".toList

/-- Remove trailing spaces, the `for len(result) > 0 && last == ' '` loop
of `decodeAircraftID`. -/
def trimTrailingSpaces (l : List Char) : List Char :=
  (l.reverse.dropWhile (fun c => c = ' ')).reverse

/-- `decodeAircraftID`: unpack eight 6-bit characters from 6 input bytes
(exact byte/shift/mask windows of the source), then trim trailing spaces. -/
def decodeAircraftID (data : List Nat) : String :=
  if data.length < 6 then "" else
  let d0 := data.getD 0 0
  let d1 := data.getD 1 0
  let d2 := data.getD 2 0
  let d3 := data.getD 3 0
  let d4 := data.getD 4 0
  let d5 := data.getD 5 0
  let idxs : List Nat :=
    [(d0 >>> 2) &&& 0x3F,
     ((d0 &&& 0x03) <<< 4) ||| ((d1 >>> 4) &&& 0x0F),
     ((d1 &&& 0x0F) <<< 2) ||| ((d2 >>> 6) &&& 0x03),
     d2 &&& 0x3F,
     (d3 >>> 2) &&& 0x3F,
     ((d3 &&& 0x03) <<< 4) ||| ((d4 >>> 4) &&& 0x0F),
     ((d4 &&& 0x0F) <<< 2) ||| ((d5 >>> 6) &&& 0x03),
     d5 &&& 0x3F]
  String.mk (trimTrailingSpaces (idxs.map (fun i => acftChars.getD i '?')))

/-- The I048/090 signed flight-level computation:
`flValue := int16(flRaw & 0x3FFF); if flRaw&0x2000 != 0 then
flValue = -((^flValue + 1) & 0x3FFF)`, in Go `int16` arithmetic. -/
def flSigned (flRaw : Nat) : Int :=
  if flRaw &&& 0x2000 ≠ 0 then
    int16Neg (int16And (int16Add (int16Not (toInt16 ((flRaw &&& 0x3FFF : Nat) : Int))) 1) 0x3FFF)
  else toInt16 ((flRaw &&& 0x3FFF : Nat) : Int)

/-- `decodeCAT48Item`: decode one CAT 048 data item; returns
`(fieldName, value, bytesConsumed)`.  Each `case` guard that fails falls
through to the trailing base64 default, exactly as in the source. -/
def decodeCAT48Item (data : List Nat) (frn : Nat) : String × FieldValue × Nat :=
  let dflt : String × FieldValue × Nat :=
    ("I048_" ++ pad3 frn,
     FieldValue.vStr (base64Encode (data.take (estimateFieldSize data))),
     estimateFieldSize data)
  match frn with
  | 1 => -- I048/010 - Data Source Identifier
    if 2 ≤ data.length then
      ("data_source_id",
       .vMap [("sac", .vInt (data.getD 0 0 : Nat)), ("sic", .vInt (data.getD 1 0 : Nat))], 2)
    else dflt
  | 3 => -- I048/040 - Measured Position in Polar Co-ordinates
    if 4 ≤ data.length then
      ("measured_position_polar",
       .vMap [("rho_nm", .vRat ((u16be (data.getD 0 0) (data.getD 1 0) : ℚ) * (1 / 256))),
              ("theta_deg", .vRat ((u16be (data.getD 2 0) (data.getD 3 0) : ℚ) * (360 / 65536)))],
       4)
    else dflt
  | 4 => -- I048/070 - Mode-3/A Code
    if 2 ≤ data.length then
      let v := u16be (data.getD 0 0) (data.getD 1 0)
      ("mode3a",
       .vMap [("validated", .vBool (v &&& 0x8000 == 0)),
              ("garbled", .vBool (v &&& 0x4000 != 0)),
              ("code", .vStr (oct4 (v &&& 0x0FFF)))], 2)
    else dflt
  | 5 => -- I048/090 - Flight Level
    if 2 ≤ data.length then
      let flRaw := u16be (data.getD 0 0) (data.getD 1 0)
      ("flight_level",
       .vMap [("validated", .vBool (flRaw &&& 0x8000 == 0)),
              ("garbled", .vBool (flRaw &&& 0x4000 != 0)),
              ("fl", .vRat ((flSigned flRaw : ℚ) / 4))], 2)
    else dflt
  | 8 => -- I048/220 - Aircraft Address
    if 3 ≤ data.length then
      ("aircraft_address",
       .vStr (hexPad ((data.getD 0 0 <<< 16) ||| (data.getD 1 0 <<< 8) ||| data.getD 2 0) 6), 3)
    else dflt
  | 9 => -- I048/240 - Aircraft Identification
    if 6 ≤ data.length then
      ("aircraft_id", .vStr (decodeAircraftID (data.take 6)), 6)
    else dflt
  | _ => dflt

/-- `decodeCAT62Item`: decode one CAT 062 data item. -/
def decodeCAT62Item (data : List Nat) (frn : Nat) : String × FieldValue × Nat :=
  let dflt : String × FieldValue × Nat :=
    ("I062_" ++ pad3 frn,
     FieldValue.vStr (base64Encode (data.take (estimateFieldSize data))),
     estimateFieldSize data)
  match frn with
  | 1 => -- I062/010 - Data Source Identifier
    if 2 ≤ data.length then
      ("data_source_id",
       .vMap [("sac", .vInt (data.getD 0 0 : Nat)), ("sic", .vInt (data.getD 1 0 : Nat))], 2)
    else dflt
  | 4 => -- I062/040 - Track Number
    if 2 ≤ data.length then
      ("track_number", .vInt (u16be (data.getD 0 0) (data.getD 1 0) : Nat), 2)
    else dflt
  | 8 => -- I062/105 - Calculated Position (WGS-84)
    if 8 ≤ data.length then
      let lat := toInt32 ((data.getD 0 0 <<< 24) ||| (data.getD 1 0 <<< 16) |||
                          (data.getD 2 0 <<< 8) ||| data.getD 3 0 : Nat)
      let lon := toInt32 ((data.getD 4 0 <<< 24) ||| (data.getD 5 0 <<< 16) |||
                          (data.getD 6 0 <<< 8) ||| data.getD 7 0 : Nat)
      ("position_wgs84",
       .vMap [("latitude", .vRat ((lat : ℚ) * (180 / 2 ^ 31))),
              ("longitude", .vRat ((lon : ℚ) * (180 / 2 ^ 31)))], 8)
    else dflt
  | 10 => -- I062/136 - Measured Flight Level (int16 * 0.25)
    if 2 ≤ data.length then
      ("measured_flight_level",
       .vRat ((toInt16 (u16be (data.getD 0 0) (data.getD 1 0) : Nat) : ℚ) * (1 / 4)), 2)
    else dflt
  | _ => dflt

/-- `decodeCAT34Item`: decode one CAT 034 data item. -/
def decodeCAT34Item (data : List Nat) (frn : Nat) : String × FieldValue × Nat :=
  match frn with
  | 1 => -- I034/010 - Data Source Identifier
    if 2 ≤ data.length then
      ("data_source_id",
       .vMap [("sac", .vInt (data.getD 0 0 : Nat)), ("sic", .vInt (data.getD 1 0 : Nat))], 2)
    else
      ("I034_" ++ pad3 frn,
       FieldValue.vStr (base64Encode (data.take (estimateFieldSize data))),
       estimateFieldSize data)
  | _ =>
    ("I034_" ++ pad3 frn,
     FieldValue.vStr (base64Encode (data.take (estimateFieldSize data))),
     estimateFieldSize data)

/-- The scan loop of the I021/040 target-report-descriptor case:
`size := 1; for i < len(data) && i < 10 { if even break; size++ }`. -/
def trdSize : List Nat → Nat → Nat → Nat
  | [], _, size => size
  | b :: rest, i, size =>
    if 10 ≤ i then size
    else if b % 2 = 0 then size
    else trdSize rest (i + 1) (size + 1)

/-- `decodeCAT21Item`: decode one CAT 021 (ADS-B) data item. -/
def decodeCAT21Item (data : List Nat) (frn : Nat) : String × FieldValue × Nat :=
  let dflt : String × FieldValue × Nat :=
    ("I021_" ++ pad3 frn,
     FieldValue.vStr (base64Encode (data.take (estimateFieldSize data))),
     estimateFieldSize data)
  match frn with
  | 1 => -- I021/010 - Data Source Identification
    if 2 ≤ data.length then
      ("data_source_id",
       .vMap [("sac", .vInt (data.getD 0 0 : Nat)), ("sic", .vInt (data.getD 1 0 : Nat))], 2)
    else dflt
  | 2 => -- I021/040 - Target Report Descriptor (variable length)
    let size := trdSize data 0 1
    if size ≤ data.length then
      ("target_report_descriptor", .vStr (base64Encode (data.take size)), size)
    else dflt
  | 3 => -- I021/161 - Track Number (12 bits)
    if 2 ≤ data.length then
      ("track_number", .vInt (u16be (data.getD 0 0) (data.getD 1 0) &&& 0x0FFF : Nat), 2)
    else dflt
  | 4 => -- I021/015 - Service Identification
    if 1 ≤ data.length then
      ("service_id", .vInt (data.getD 0 0 : Nat), 1)
    else dflt
  | 5 => -- I021/071 - Time of Applicability for Position
    if 3 ≤ data.length then
      let toa := (data.getD 0 0 <<< 16) ||| (data.getD 1 0 <<< 8) ||| data.getD 2 0
      ("time_of_applicability_position",
       .vMap [("raw", .vInt (toa : Nat)), ("seconds", .vRat ((toa : ℚ) / 128))], 3)
    else dflt
  | 6 => -- I021/130 - Position in WGS-84 Coordinates
    if 8 ≤ data.length then
      let lat := toInt32 ((data.getD 0 0 <<< 24) ||| (data.getD 1 0 <<< 16) |||
                          (data.getD 2 0 <<< 8) ||| data.getD 3 0 : Nat)
      let lon := toInt32 ((data.getD 4 0 <<< 24) ||| (data.getD 5 0 <<< 16) |||
                          (data.getD 6 0 <<< 8) ||| data.getD 7 0 : Nat)
      ("position_wgs84",
       .vMap [("latitude", .vRat ((lat : ℚ) * (180 / 2 ^ 23))),
              ("longitude", .vRat ((lon : ℚ) * (180 / 2 ^ 23)))], 8)
    else dflt
  | 7 => -- I021/131 - High-Resolution Position in WGS-84
    if 8 ≤ data.length then
      let lat := toInt32 ((data.getD 0 0 <<< 24) ||| (data.getD 1 0 <<< 16) |||
                          (data.getD 2 0 <<< 8) ||| data.getD 3 0 : Nat)
      let lon := toInt32 ((data.getD 4 0 <<< 24) ||| (data.getD 5 0 <<< 16) |||
                          (data.getD 6 0 <<< 8) ||| data.getD 7 0 : Nat)
      ("position_wgs84_high_res",
       .vMap [("latitude", .vRat ((lat : ℚ) * (180 / 2 ^ 30))),
              ("longitude", .vRat ((lon : ℚ) * (180 / 2 ^ 30)))], 8)
    else dflt
  | 11 => -- I021/080 - Target Address
    if 3 ≤ data.length then
      ("target_address",
       .vStr (hexPad ((data.getD 0 0 <<< 16) ||| (data.getD 1 0 <<< 8) ||| data.getD 2 0) 6), 3)
    else dflt
  | 16 => -- I021/146 - Selected Altitude
    if 2 ≤ data.length then
      let alt := toInt16 (u16be (data.getD 0 0) (data.getD 1 0) : Nat)
      ("selected_altitude",
       .vMap [("source", .vInt (int16And (int16Shr alt 15) 0x01)),
              ("altitude", .vRat ((int16And alt 0x7FFF : ℚ) * 25))], 2)
    else dflt
  | 17 => -- I021/148 - Final State Selected Altitude
    if 2 ≤ data.length then
      let alt := toInt16 (u16be (data.getD 0 0) (data.getD 1 0) : Nat)
      ("final_state_selected_altitude",
       .vMap [("mv", .vInt (int16And (int16Shr alt 15) 0x01)),
              ("ah", .vInt (int16And (int16Shr alt 14) 0x01)),
              ("am", .vInt (int16And (int16Shr alt 13) 0x01)),
              ("altitude", .vRat ((int16And alt 0x1FFF : ℚ) * 25))], 2)
    else dflt
  | 20 => -- I021/110 - Trajectory Intent (opaque, estimator-sized)
    if 1 ≤ data.length then
      ("trajectory_intent",
       .vStr (base64Encode (data.take (estimateFieldSize data))), estimateFieldSize data)
    else dflt
  | 22 => -- I021/170 - Target Identification
    if 6 ≤ data.length then
      ("target_identification", .vStr (decodeAircraftID (data.take 6)), 6)
    else dflt
  | 23 => -- I021/020 - Emitter Category
    if 1 ≤ data.length then
      ("emitter_category", .vInt (data.getD 0 0 : Nat), 1)
    else dflt
  | _ => dflt

/-- `decodeDataItem`: dispatch a single data item by category and FRN.
Unknown categories are sized by the estimator and base64-encoded. -/
def decodeDataItem (data : List Nat) (category frn : Nat) : String × FieldValue × Nat :=
  match category with
  | 48 => decodeCAT48Item data frn
  | 62 => decodeCAT62Item data frn
  | 34 => decodeCAT34Item data frn
  | 21 => decodeCAT21Item data frn
  | _ =>
    let fieldName := "I" ++ pad3 category ++ "_" ++ pad3 frn
    let size := estimateFieldSize data
    if 0 < size ∧ size ≤ data.length then
      (fieldName, .vStr (base64Encode (data.take size)), size)
    else
      (fieldName, .vStr (base64Encode (data.take (min data.length 8))), min data.length 8)

/-- One decoded data block: the raw FSPEC bytes (base64) and the decoded
items.  (In the source the block is `map[string]interface{}` holding keys
`fspec` and, when non-empty, `data_items`.) -/
structure Block where
  fspec : String
  dataItems : List (String × FieldValue)

/-- Go map assignment `dataItems[name] = value`: replace an existing key,
otherwise append. -/
def mapInsert (items : List (String × FieldValue)) (k : String) (v : FieldValue) :
    List (String × FieldValue) :=
  if items.any (fun p => p.1 == k) then
    items.map (fun p => if p.1 == k then (k, v) else p)
  else items ++ [(k, v)]

/-- The inner bit loop of `decodeDataBlock`: walk bits `bitIdx .. 1` of one
FSPEC byte (bit 0 is the FX extension bit), decoding a data item for each
set bit and incrementing the FRN for every bit examined.  State is
`(offset, frn, items)`. -/
def processBits (data : List Nat) (category fspecByte : Nat) :
    Nat → Nat → Nat → List (String × FieldValue) → Nat × Nat × List (String × FieldValue)
  | 0, frn, offset, items => (offset, frn, items)
  | bitIdx + 1, frn, offset, items =>
    if fspecByte.testBit (bitIdx + 1) then
      let r := decodeDataItem (data.drop offset) category frn
      if 0 < r.2.2 then
        processBits data category fspecByte bitIdx (frn + 1) (offset + r.2.2)
          (mapInsert items r.1 r.2.1)
      else
        processBits data category fspecByte bitIdx (frn + 1) offset items
    else
      processBits data category fspecByte bitIdx (frn + 1) offset items

/-- The outer byte loop of `decodeDataBlock`: process every FSPEC byte. -/
def processBytes (data : List Nat) (category : Nat) :
    List Nat → Nat → Nat → List (String × FieldValue) → Nat × Nat × List (String × FieldValue)
  | [], frn, offset, items => (offset, frn, items)
  | b :: rest, frn, offset, items =>
    let r := processBits data category b 7 frn offset items
    processBytes data category rest r.2.1 r.1 r.2.2

/-- `decodeDataBlock`: decode a single ASTERIX data block (FSPEC bitmap
followed by the present fields); returns the block and the bytes consumed,
or the error message the source wraps in `fmt.Errorf`. -/
def decodeDataBlock (data : List Nat) (category : Nat) :
    Except String (Block × Nat) :=
  if data.length = 0 then .error "empty data block"
  else
    let fr := parseFSPEC data
    if fr.2 = 0 then .error "failed to parse FSPEC"
    else
      let r := processBytes data category fr.1 1 fr.2 []
      .ok ({ fspec := base64Encode (data.take fr.2), dataItems := r.2.2 }, r.1)

/-- The decoded-message result (`AsterixMessage` in the source); the Go
zero values `Category = 0`, `Length = 0`, `ParseError = ""` are modelled by
`0`, `0`, `none`. -/
structure AsterixMessage where
  category : Nat
  length : Nat
  dataBlocks : List Block
  parseError : Option String
  unsupported : Bool

/-- The block-iteration loop of `decodeAsterixMessage`
(`for offset < msg.Length && offset < len(payload)`), written with a fuel
argument for structural recursion; the top-level call passes fuel `msgLen`,
which a strictly increasing `offset` (bytes consumed are `≥ 1` whenever the
loop continues) can never exhaust. -/
def decodeBlocks (payload : List Nat) (msgLen category : Nat) :
    Nat → Nat → Nat → List Block → List Block × Option String
  | 0, _, _, blocks => (blocks, none)
  | fuel + 1, offset, blockNum, blocks =>
    if offset < msgLen ∧ offset < payload.length then
      match decodeDataBlock (payload.drop offset) category with
      | .error e =>
        (blocks, some ("error at block " ++ toString blockNum ++ ", offset " ++
                       toString offset ++ ": " ++ e))
      | .ok (block, bytesRead) =>
        if bytesRead = 0 then (blocks, none)
        else decodeBlocks payload msgLen category fuel (offset + bytesRead)
               (blockNum + 1) (blocks ++ [block])
    else (blocks, none)

/-- `decodeAsterixMessage`: top-level decoder entry point. -/
def decodeAsterixMessage (payload : List Nat) : AsterixMessage :=
  if payload.length < 3 then
    { category := 0, length := 0, dataBlocks := [],
      parseError := some "payload too short for ASTERIX", unsupported := false }
  else
    let category := payload.getD 0 0
    let length := u16be (payload.getD 1 0) (payload.getD 2 0)
    if length < 3 ∨ payload.length < length then
      { category := category, length := length, dataBlocks := [],
        parseError := some ("invalid length field: " ++ toString length ++
                            " (payload size: " ++ toString payload.length ++ ")"),
        unsupported := false }
    else
      let r := decodeBlocks payload length category length 3 0 []
      { category := category, length := length, dataBlocks := r.1,
        parseError := r.2, unsupported := false }

theorem parseFSPECAux_spec (data : List Nat) :
    ∀ (i : Nat) (acc : List Nat), acc.length = i →
      (parseFSPECAux data i acc).2 ≤ i + data.length ∧
      i ≤ (parseFSPECAux data i acc).2 ∧
      (i ≤ 10 → (parseFSPECAux data i acc).2 ≤ 11) ∧
      (data ≠ [] → i + 1 ≤ (parseFSPECAux data i acc).2) ∧
      (parseFSPECAux data i acc).1.length = (parseFSPECAux data i acc).2 ∧
      (parseFSPECAux data i acc).1 = acc ++ data.take ((parseFSPECAux data i acc).2 - i) := by
  induction data with
  | nil =>
    intro i acc h
    simp [parseFSPECAux, h]
    omega
  | cons b rest ih =>
    intro i acc h
    by_cases hb : b % 2 = 0
    · simp only [parseFSPECAux, if_pos hb]
      refine ⟨by simp, by omega, by omega, fun _ => by omega, by simp [h], ?_⟩
      simp [List.take_succ_cons]
    · by_cases hi : 10 ≤ i
      · simp only [parseFSPECAux, if_neg hb, if_pos hi]
        refine ⟨by simp, by omega, by omega, fun _ => by omega, by simp [h], ?_⟩
        simp [List.take_succ_cons]
      · have h2 : (acc ++ [b]).length = i + 1 := by simp [h]
        have := ih (i + 1) (acc ++ [b]) h2
        simp only [parseFSPECAux, if_neg hb, if_neg hi]
        obtain ⟨l1, l2, l3, l4, l5, l6⟩ := this
        refine ⟨by simpa using by omega, by omega, fun _ => l3 (by omega),
                fun _ => by omega, l5, ?_⟩
        rw [l6]
        have htake : (b :: rest).take ((parseFSPECAux rest (i + 1) (acc ++ [b])).2 - i) =
            b :: rest.take ((parseFSPECAux rest (i + 1) (acc ++ [b])).2 - (i + 1)) := by
          have : (parseFSPECAux rest (i + 1) (acc ++ [b])).2 - i =
              ((parseFSPECAux rest (i + 1) (acc ++ [b])).2 - (i + 1)) + 1 := by omega
          rw [this, List.take_succ_cons]
        rw [htake]
        simp

theorem parseFSPEC_len_le (data : List Nat) : (parseFSPEC data).2 ≤ data.length := by
  have := parseFSPECAux_spec data 0 [] rfl
  simpa [parseFSPEC] using this.1

theorem parseFSPEC_le_11 (data : List Nat) : (parseFSPEC data).2 ≤ 11 := by
  have := parseFSPECAux_spec data 0 [] rfl
  exact this.2.2.1 (by omega)

theorem parseFSPEC_pos (data : List Nat) (h : data ≠ []) : 1 ≤ (parseFSPEC data).2 := by
  have := parseFSPECAux_spec data 0 [] rfl
  simpa [parseFSPEC] using this.2.2.2.1 h

theorem parseFSPEC_fst_take (data : List Nat) :
    (parseFSPEC data).1 = data.take (parseFSPEC data).2 := by
  have := parseFSPECAux_spec data 0 [] rfl
  simpa [parseFSPEC] using this.2.2.2.2.2

theorem parseFSPEC_fst_len (data : List Nat) :
    (parseFSPEC data).1.length = (parseFSPEC data).2 := by
  have := parseFSPECAux_spec data 0 [] rfl
  simpa [parseFSPEC] using this.2.2.2.2.1

theorem parseFSPECAux_allodd (data : List Nat) :
    ∀ (i : Nat) (acc : List Nat), i ≤ 10 → (∀ b ∈ data, b % 2 = 1) →
      11 ≤ i + data.length → (parseFSPECAux data i acc).2 = 11 := by
  induction data with
  | nil => intro i acc hi _ hlen; simp at hlen; omega
  | cons b rest ih =>
    intro i acc hi hodd hlen
    have hb : ¬ b % 2 = 0 := by
      have := hodd b (by simp)
      omega
    by_cases hten : 10 ≤ i
    · simp only [parseFSPECAux, if_neg hb, if_pos hten]
      omega
    · simp only [parseFSPECAux, if_neg hb, if_neg hten]
      exact ih (i + 1) (acc ++ [b]) (by omega)
        (fun x hx => hodd x (by simp [hx])) (by simp at hlen ⊢; omega)

theorem parseFSPEC_allodd (data : List Nat) (hlen : 11 < data.length)
    (hodd : ∀ b ∈ data, b % 2 = 1) : (parseFSPEC data).2 = 11 :=
  parseFSPECAux_allodd data 0 [] (by omega) hodd (by omega)

theorem parseFSPECAux_firstclear (data : List Nat) :
    ∀ (j i : Nat) (acc : List Nat), i + j ≤ 10 → j < data.length →
      (∀ k, k < j → data.getD k 0 % 2 = 1) → data.getD j 0 % 2 = 0 →
      parseFSPECAux data i acc = (acc ++ data.take (j + 1), i + j + 1) := by
  induction data with
  | nil => intro j i acc _ hj; simp at hj
  | cons b rest ih =>
    intro j i acc hij hj hodd hclear
    match j with
    | 0 =>
      have hb : b % 2 = 0 := by simpa using hclear
      simp [parseFSPECAux, if_pos hb, List.take_succ_cons]
    | j' + 1 =>
      have hb : ¬ b % 2 = 0 := by
        have := hodd 0 (by omega)
        simp at this
        omega
      have hten : ¬ 10 ≤ i := by omega
      simp only [parseFSPECAux, if_neg hb, if_neg hten]
      have := ih j' (i + 1) (acc ++ [b]) (by omega) (by simpa using hj)
        (fun k hk => by simpa using hodd (k + 1) (by omega)) (by simpa using hclear)
      rw [this]
      simp only [List.take_succ_cons, List.append_assoc, List.singleton_append]
      have harith : i + 1 + j' + 1 = i + (j' + 1) + 1 := by omega
      rw [harith]

theorem findClearFX_le (l : List Nat) :
    ∀ (i s : Nat), findClearFX l i = some s → s ≤ i + l.length ∧ s ≤ 20 := by
  induction l with
  | nil => intro i s h; simp [findClearFX] at h
  | cons b rest ih =>
    intro i s h
    simp only [findClearFX] at h
    by_cases h20 : 20 ≤ i
    · simp [if_pos h20] at h
    · rw [if_neg h20] at h
      by_cases hb : b % 2 = 0
      · rw [if_pos hb] at h
        simp at h
        simp; omega
      · rw [if_neg hb] at h
        have := ih (i + 1) s h
        simp at this ⊢
        omega

theorem findClearFX_ge (l : List Nat) :
    ∀ (i s : Nat), findClearFX l i = some s → i < s := by
  induction l with
  | nil => intro i s h; simp [findClearFX] at h
  | cons b rest ih =>
    intro i s h
    simp only [findClearFX] at h
    by_cases h20 : 20 ≤ i
    · simp [if_pos h20] at h
    · rw [if_neg h20] at h
      by_cases hb : b % 2 = 0
      · rw [if_pos hb] at h
        simp at h
        omega
      · rw [if_neg hb] at h
        have := ih (i + 1) s h
        omega

theorem estimateFieldSize_le (data : List Nat) : estimateFieldSize data ≤ data.length := by
  unfold estimateFieldSize
  split
  · omega
  · split
    · split
      · next s hs =>
        have := findClearFX_le data 0 s hs
        omega
      · split <;> omega
    · split <;> omega

theorem estimateFieldSize_le_20 (data : List Nat) : estimateFieldSize data ≤ 20 := by
  unfold estimateFieldSize
  split
  · omega
  · split
    · split
      · next s hs =>
        have := findClearFX_le data 0 s hs
        omega
      · split <;> omega
    · split <;> omega

theorem estimateFieldSize_pos (data : List Nat) (h : data ≠ []) :
    1 ≤ estimateFieldSize data := by
  have hlen : data.length ≠ 0 := by simpa using h
  unfold estimateFieldSize
  rw [if_neg hlen]
  split
  · split
    · next s hs =>
      have := findClearFX_ge data 0 s hs
      omega
    · split <;> omega
  · split <;> omega

theorem estimateFieldSize_nil : estimateFieldSize [] = 0 := rfl

/-- Claim C1: the detector `isAsterixMessage` returns true if and only if
the buffer has length at least 3, its first byte (the category) lies in
`[1, 250]`, the big-endian declared length `d` from bytes 1-2 satisfies
`3 ≤ d ≤ payloadLength + 100`, and `d` equals the payload length or is at
most twice it; every other input (in particular any buffer starting with
byte `0x00` or `0xFF`) yields false. -/
theorem claim_C1 :
    (∀ p : List Nat,
      isAsterixMessage p = true ↔
        (3 ≤ p.length ∧ 1 ≤ p.getD 0 0 ∧ p.getD 0 0 ≤ 250 ∧
         3 ≤ u16be (p.getD 1 0) (p.getD 2 0) ∧
         u16be (p.getD 1 0) (p.getD 2 0) ≤ p.length + 100 ∧
         (u16be (p.getD 1 0) (p.getD 2 0) = p.length ∨
          u16be (p.getD 1 0) (p.getD 2 0) ≤ 2 * p.length))) ∧
    (∀ rest : List Nat,
      isAsterixMessage (0 :: rest) = false ∧ isAsterixMessage (255 :: rest) = false) := by
  constructor
  · intro p
    unfold isAsterixMessage
    split_ifs with h1 h2 h3 h4 <;> simp_all <;> omega
  · intro rest
    constructor <;>
      · unfold isAsterixMessage
        split_ifs <;> simp_all

/-- Claim C3: `parseFSPEC` accumulates input bytes and stops at the first
byte with clear extension (least-significant) bit, returning the bytes and
their count; it never returns more than 11 bytes, and on more than 11
all-extension-set bytes it returns exactly 11; empty input gives length 0,
`0x80` gives length 1, `0x81 0x80` gives length 2. -/
theorem claim_C3 :
    (parseFSPEC [] = ([], 0)) ∧
    (parseFSPEC [0x80] = ([0x80], 1)) ∧
    (parseFSPEC [0x81, 0x80] = ([0x81, 0x80], 2)) ∧
    (∀ data : List Nat,
       (parseFSPEC data).2 ≤ 11 ∧ (parseFSPEC data).2 ≤ data.length ∧
       (parseFSPEC data).1 = data.take (parseFSPEC data).2 ∧
       (parseFSPEC data).1.length = (parseFSPEC data).2) ∧
    (∀ data : List Nat, 11 < data.length → (∀ b ∈ data, b % 2 = 1) →
       (parseFSPEC data).2 = 11) ∧
    (∀ (data : List Nat) (j : Nat), j ≤ 10 → j < data.length →
       (∀ k, k < j → data.getD k 0 % 2 = 1) → data.getD j 0 % 2 = 0 →
       parseFSPEC data = (data.take (j + 1), j + 1)) := by
  refine ⟨rfl, rfl, rfl, ?_, ?_, ?_⟩
  · intro data
    exact ⟨parseFSPEC_le_11 data, parseFSPEC_len_le data,
           parseFSPEC_fst_take data, parseFSPEC_fst_len data⟩
  · intro data h1 h2
    exact parseFSPEC_allodd data h1 h2
  · intro data j hj hlen hodd hclear
    have := parseFSPECAux_firstclear data j 0 [] (by omega) hlen hodd hclear
    simpa [parseFSPEC] using this

/-- The 14-bit two's-complement interpretation of the low 14 bits of `v`
(the specification's reading of the flight-level sign reconstruction). -/
def twosComplement14 (v : Nat) : Int :=
  if v % 16384 < 8192 then ((v % 16384 : Nat) : Int)
  else ((v % 16384 : Nat) : Int) - 16384

theorem and_two_pow_ne_zero (x n : Nat) : (x &&& 2 ^ n ≠ 0) ↔ x / 2 ^ n % 2 = 1 := by
  rw [Nat.and_two_pow, Nat.testBit_to_div_mod]
  rcases Nat.mod_two_eq_zero_or_one (x / 2 ^ n) with h | h <;> simp [h]

theorem int16And_16383 (x : Int) :
    int16And x 16383 = (((x % 65536).toNat % 16384 : Nat) : Int) := by
  unfold int16And bits16 toInt16
  have h1 : ((16383 : Int) % 65536).toNat = 16383 := by decide
  rw [h1, Nat.and_pow_two_sub_one_eq_mod _ 14]
  have h2 : (x % 65536).toNat % 16384 < 16384 := Nat.mod_lt _ (by norm_num)
  split_ifs with h <;> omega

theorem flSigned_eq (v : Nat) : flSigned v = twosComplement14 v := by
  have hmask : v &&& 0x3FFF = v % 16384 := Nat.and_pow_two_sub_one_eq_mod v 14
  have hbit : (v &&& 0x2000 ≠ 0) ↔ v / 8192 % 2 = 1 := and_two_pow_ne_zero v 13
  have hmlt : v % 16384 < 16384 := Nat.mod_lt _ (by norm_num)
  unfold flSigned twosComplement14
  rw [hmask]
  by_cases hb : v &&& 0x2000 ≠ 0
  · rw [if_pos hb]
    have hb2 : 8192 ≤ v % 16384 := by
      have := hbit.mp hb
      omega
    rw [if_neg (by omega)]
    have s1 : toInt16 ((v % 16384 : Nat) : Int) = ((v % 16384 : Nat) : Int) := by
      unfold toInt16; split_ifs <;> omega
    rw [s1]
    have s2 : int16Not ((v % 16384 : Nat) : Int) = -((v % 16384 : Nat) : Int) - 1 := by
      unfold int16Not toInt16; split_ifs <;> omega
    rw [s2]
    have s3 : int16Add (-((v % 16384 : Nat) : Int) - 1) 1 = -((v % 16384 : Nat) : Int) := by
      unfold int16Add toInt16; split_ifs <;> omega
    rw [s3]
    have s4 : int16And (-((v % 16384 : Nat) : Int)) 16383 =
        16384 - ((v % 16384 : Nat) : Int) := by
      rw [int16And_16383]
      omega
    rw [s4]
    unfold int16Neg toInt16
    split_ifs <;> omega
  · rw [if_neg hb]
    have hb2 : v % 16384 < 8192 := by
      have : ¬ v / 8192 % 2 = 1 := fun h => hb (hbit.mpr h)
      omega
    rw [if_pos hb2]
    unfold toInt16
    split_ifs <;> omega

theorem validated_eq (v : Nat) : (v &&& 0x8000 == 0) = !v.testBit 15 := by
  rw [show (0x8000 : Nat) = 2 ^ 15 from rfl, Nat.and_two_pow]
  cases h : v.testBit 15 <;> simp [h]

theorem garbled_eq (v : Nat) : (v &&& 0x4000 != 0) = v.testBit 14 := by
  rw [show (0x4000 : Nat) = 2 ^ 14 from rfl, Nat.and_two_pow]
  cases h : v.testBit 14 <;> simp [h]

theorem mask12_eq (v : Nat) : v &&& 0x0FFF = v % 4096 :=
  Nat.and_pow_two_sub_one_eq_mod v 12

theorem trdSize_ge (data : List Nat) :
    ∀ (i size : Nat), size ≤ trdSize data i size := by
  induction data with
  | nil => intro i size; simp [trdSize]
  | cons b rest ih =>
    intro i size
    simp only [trdSize]
    split_ifs
    · omega
    · omega
    · have := ih (i + 1) (size + 1)
      omega

theorem decodeCAT48Item_le (data : List Nat) (frn : Nat) :
    (decodeCAT48Item data frn).2.2 ≤ data.length := by
  have hest := estimateFieldSize_le data
  simp only [decodeCAT48Item]
  split <;> (try split_ifs) <;> (try simp) <;> omega

theorem decodeCAT48Item_nil (frn : Nat) : (decodeCAT48Item [] frn).2.2 = 0 := by
  simp only [decodeCAT48Item]
  split <;> rfl

theorem decodeCAT48Item_pos (data : List Nat) (frn : Nat) (h : data ≠ []) :
    1 ≤ (decodeCAT48Item data frn).2.2 := by
  have hest := estimateFieldSize_pos data h
  have hlen : 1 ≤ data.length := by
    cases data with
    | nil => simp at h
    | cons a t => simp
  simp only [decodeCAT48Item]
  split <;> (try split_ifs) <;> (try simp) <;> omega

theorem decodeCAT62Item_le (data : List Nat) (frn : Nat) :
    (decodeCAT62Item data frn).2.2 ≤ data.length := by
  have hest := estimateFieldSize_le data
  simp only [decodeCAT62Item]
  split <;> (try split_ifs) <;> (try simp) <;> omega

theorem decodeCAT62Item_nil (frn : Nat) : (decodeCAT62Item [] frn).2.2 = 0 := by
  simp only [decodeCAT62Item]
  split <;> rfl

theorem decodeCAT62Item_pos (data : List Nat) (frn : Nat) (h : data ≠ []) :
    1 ≤ (decodeCAT62Item data frn).2.2 := by
  have hest := estimateFieldSize_pos data h
  simp only [decodeCAT62Item]
  split <;> (try split_ifs) <;> (try simp) <;> omega

theorem decodeCAT34Item_le (data : List Nat) (frn : Nat) :
    (decodeCAT34Item data frn).2.2 ≤ data.length := by
  have hest := estimateFieldSize_le data
  simp only [decodeCAT34Item]
  split <;> (try split_ifs) <;> (try simp) <;> omega

theorem decodeCAT34Item_nil (frn : Nat) : (decodeCAT34Item [] frn).2.2 = 0 := by
  simp only [decodeCAT34Item]
  split <;> rfl

theorem decodeCAT34Item_pos (data : List Nat) (frn : Nat) (h : data ≠ []) :
    1 ≤ (decodeCAT34Item data frn).2.2 := by
  have hest := estimateFieldSize_pos data h
  simp only [decodeCAT34Item]
  split <;> (try split_ifs) <;> (try simp) <;> omega

theorem decodeCAT21Item_le (data : List Nat) (frn : Nat) :
    (decodeCAT21Item data frn).2.2 ≤ data.length := by
  have hest := estimateFieldSize_le data
  simp only [decodeCAT21Item]
  split <;> (try split_ifs) <;> (try simp) <;> omega

theorem decodeCAT21Item_nil (frn : Nat) : (decodeCAT21Item [] frn).2.2 = 0 := by
  simp only [decodeCAT21Item]
  split <;> rfl

theorem decodeCAT21Item_pos (data : List Nat) (frn : Nat) (h : data ≠ []) :
    1 ≤ (decodeCAT21Item data frn).2.2 := by
  have hest := estimateFieldSize_pos data h
  have htrd := trdSize_ge data 0 1
  simp only [decodeCAT21Item]
  split <;> (try split_ifs) <;> (try simp) <;> omega

theorem decodeDataItem_le (data : List Nat) (category frn : Nat) :
    (decodeDataItem data category frn).2.2 ≤ data.length := by
  have hest := estimateFieldSize_le data
  simp only [decodeDataItem]
  split
  · exact decodeCAT48Item_le data frn
  · exact decodeCAT62Item_le data frn
  · exact decodeCAT34Item_le data frn
  · exact decodeCAT21Item_le data frn
  · split_ifs <;> (try simp) <;> omega

theorem decodeDataItem_nil (category frn : Nat) :
    (decodeDataItem [] category frn).2.2 = 0 := by
  simp only [decodeDataItem]
  split
  · exact decodeCAT48Item_nil frn
  · exact decodeCAT62Item_nil frn
  · exact decodeCAT34Item_nil frn
  · exact decodeCAT21Item_nil frn
  · split_ifs <;> rfl

theorem decodeDataItem_pos (data : List Nat) (category frn : Nat) (h : data ≠ []) :
    1 ≤ (decodeDataItem data category frn).2.2 := by
  have hest := estimateFieldSize_pos data h
  have hestle := estimateFieldSize_le data
  have hlen : 1 ≤ data.length := by
    cases data with
    | nil => simp at h
    | cons a t => simp
  simp only [decodeDataItem]
  split
  · exact decodeCAT48Item_pos data frn h
  · exact decodeCAT62Item_pos data frn h
  · exact decodeCAT34Item_pos data frn h
  · exact decodeCAT21Item_pos data frn h
  · split_ifs <;> (try simp) <;> omega

theorem processBits_mono (data : List Nat) (category fspecByte : Nat) :
    ∀ (bits frn offset : Nat) (items : List (String × FieldValue)),
      offset ≤ (processBits data category fspecByte bits frn offset items).1 := by
  intro bits
  induction bits with
  | zero => intro frn offset items; simp [processBits]
  | succ b ih =>
    intro frn offset items
    simp only [processBits]
    split_ifs with h1 h2
    · have := ih (frn + 1)
        (offset + (decodeDataItem (data.drop offset) category frn).2.2)
        (mapInsert items (decodeDataItem (data.drop offset) category frn).1
          (decodeDataItem (data.drop offset) category frn).2.1)
      omega
    · exact ih _ _ _
    · exact ih _ _ _

theorem processBits_le (data : List Nat) (category fspecByte : Nat) :
    ∀ (bits frn offset : Nat) (items : List (String × FieldValue)),
      offset ≤ data.length →
      (processBits data category fspecByte bits frn offset items).1 ≤ data.length := by
  intro bits
  induction bits with
  | zero => intro frn offset items h; simpa [processBits] using h
  | succ b ih =>
    intro frn offset items h
    simp only [processBits]
    split_ifs with h1 h2
    · have hcons := decodeDataItem_le (data.drop offset) category frn
      have hdrop : (data.drop offset).length = data.length - offset := by
        simp
      exact ih _ _ _ (by omega)
    · exact ih _ _ _ h
    · exact ih _ _ _ h

theorem processBits_skip (data : List Nat) (category fspecByte : Nat) :
    ∀ (bits frn offset : Nat) (items : List (String × FieldValue)),
      data.length ≤ offset →
      processBits data category fspecByte bits frn offset items =
        (offset, frn + bits, items) := by
  intro bits
  induction bits with
  | zero => intro frn offset items _; simp [processBits]
  | succ b ih =>
    intro frn offset items h
    have hdrop : data.drop offset = [] := by
      apply List.drop_eq_nil_of_le
      omega
    have hnil : (decodeDataItem (data.drop offset) category frn).2.2 = 0 := by
      rw [hdrop]
      exact decodeDataItem_nil category frn
    simp only [processBits]
    split_ifs with h1 h2
    · omega
    · rw [ih (frn + 1) offset items h]
      simp
      omega
    · rw [ih (frn + 1) offset items h]
      simp
      omega

theorem processBytes_mono (data : List Nat) (category : Nat) :
    ∀ (fspec : List Nat) (frn offset : Nat) (items : List (String × FieldValue)),
      offset ≤ (processBytes data category fspec frn offset items).1 := by
  intro fspec
  induction fspec with
  | nil => intro frn offset items; simp [processBytes]
  | cons b rest ih =>
    intro frn offset items
    simp only [processBytes]
    have h1 := processBits_mono data category b 7 frn offset items
    have h2 := ih (processBits data category b 7 frn offset items).2.1
      (processBits data category b 7 frn offset items).1
      (processBits data category b 7 frn offset items).2.2
    omega

theorem processBytes_le (data : List Nat) (category : Nat) :
    ∀ (fspec : List Nat) (frn offset : Nat) (items : List (String × FieldValue)),
      offset ≤ data.length →
      (processBytes data category fspec frn offset items).1 ≤ data.length := by
  intro fspec
  induction fspec with
  | nil => intro frn offset items h; simpa [processBytes] using h
  | cons b rest ih =>
    intro frn offset items h
    simp only [processBytes]
    exact ih _ _ _ (processBits_le data category b 7 frn offset items h)

theorem processBytes_skip (data : List Nat) (category : Nat) :
    ∀ (fspec : List Nat) (frn offset : Nat) (items : List (String × FieldValue)),
      data.length ≤ offset →
      processBytes data category fspec frn offset items =
        (offset, frn + 7 * fspec.length, items) := by
  intro fspec
  induction fspec with
  | nil => intro frn offset items _; simp [processBytes]
  | cons b rest ih =>
    intro frn offset items h
    simp only [processBytes]
    rw [processBits_skip data category b 7 frn offset items h]
    rw [ih (frn + 7) offset items h]
    simp
    omega

theorem decodeDataBlock_ok (data : List Nat) (category : Nat) (h : data ≠ []) :
    ∃ blk n, decodeDataBlock data category = .ok (blk, n) ∧ 1 ≤ n ∧ n ≤ data.length := by
  have hlen : ¬ data.length = 0 := by simpa using h
  have hfs := parseFSPEC_pos data h
  have hfsle := parseFSPEC_len_le data
  simp only [decodeDataBlock, if_neg hlen]
  rw [if_neg (by omega : ¬ (parseFSPEC data).2 = 0)]
  refine ⟨_, _, rfl, ?_, ?_⟩
  · have := processBytes_mono data category (parseFSPEC data).1 1 (parseFSPEC data).2 []
    omega
  · exact processBytes_le data category (parseFSPEC data).1 1 (parseFSPEC data).2 []
      (by omega)

theorem decodeBlocks_none (payload : List Nat) (msgLen category : Nat) :
    ∀ (fuel offset blockNum : Nat) (blocks : List Block),
      (decodeBlocks payload msgLen category fuel offset blockNum blocks).2 = none := by
  intro fuel
  induction fuel with
  | zero => intro offset bn blocks; simp [decodeBlocks]
  | succ f ih =>
    intro offset bn blocks
    simp only [decodeBlocks]
    split_ifs with h
    · have hne : payload.drop offset ≠ [] := by
        intro hc
        have := List.drop_eq_nil_iff.mp hc
        omega
      obtain ⟨blk, n, hok, hn1, _⟩ := decodeDataBlock_ok _ category hne
      rw [hok]
      simp only
      rw [if_neg (by omega : ¬ n = 0)]
      exact ih _ _ _
    · rfl

theorem decodeBlocks_len (payload : List Nat) (msgLen category : Nat) :
    ∀ (fuel offset blockNum : Nat) (blocks : List Block),
      (decodeBlocks payload msgLen category fuel offset blockNum blocks).1.length ≤
        blocks.length + fuel := by
  intro fuel
  induction fuel with
  | zero => intro offset bn blocks; simp [decodeBlocks]
  | succ f ih =>
    intro offset bn blocks
    simp only [decodeBlocks]
    split_ifs with h
    · cases hok : decodeDataBlock (payload.drop offset) category with
      | error e => simp
      | ok p =>
        simp only
        split_ifs with hz
        · simp
        · have := ih (offset + p.2) (bn + 1) (blocks ++ [p.1])
          simp at this
          omega
    · simp

/-- Claim C4: decoding the CAT 048 flight-level field (FRN 5) with at
least 2 bytes remaining consumes exactly 2 bytes and yields
`validated = (bit 15 of v = 0)`, `garbled = (bit 14 of v ≠ 0)`, and
`fl = s / 4` where `s` is the 14-bit two's-complement interpretation of
the low 14 bits of the big-endian 16-bit value `v`. -/
theorem claim_C4 (b0 b1 : Nat) (rest : List Nat) :
    decodeCAT48Item (b0 :: b1 :: rest) 5 =
      ("flight_level",
       FieldValue.vMap
         [("validated", FieldValue.vBool (!(u16be b0 b1).testBit 15)),
          ("garbled", FieldValue.vBool ((u16be b0 b1).testBit 14)),
          ("fl", FieldValue.vRat ((twosComplement14 (u16be b0 b1) : ℚ) / 4))],
       2) := by
  have hlen : 2 ≤ (b0 :: b1 :: rest).length := by simp
  simp only [decodeCAT48Item, if_pos hlen, List.getD_cons_zero, List.getD_cons_succ]
  rw [validated_eq, garbled_eq, flSigned_eq]

/-- Claim C7: decoding the CAT 021 track-number field (FRN 3) with at
least 2 bytes remaining consumes exactly 2 bytes and returns the
big-endian 16-bit value masked to its low 12 bits; in particular bytes
`0x12 0x34` decode to 564. -/
theorem claim_C7 :
    (∀ (b0 b1 : Nat) (rest : List Nat),
       decodeCAT21Item (b0 :: b1 :: rest) 3 =
         ("track_number", FieldValue.vInt ((u16be b0 b1 % 4096 : Nat) : Int), 2)) ∧
    decodeCAT21Item [0x12, 0x34] 3 = ("track_number", FieldValue.vInt 564, 2) := by
  constructor
  · intro b0 b1 rest
    have hlen : 2 ≤ (b0 :: b1 :: rest).length := by simp
    simp only [decodeCAT21Item, if_pos hlen, List.getD_cons_zero, List.getD_cons_succ]
    rw [mask12_eq]
  · rfl

/-- Closed instance of C3's conditional parts: 12 all-extension-set bytes
stop at exactly 11, and a single clear-FX byte stops at index 0. -/
theorem claim_C3_witness :
    (parseFSPEC (List.replicate 12 1)).2 = 11 ∧ parseFSPEC [2] = ([2], 1) := by
  constructor
  · exact claim_C3.2.2.2.2.1 (List.replicate 12 1) (by decide) (by decide)
  · have := claim_C3.2.2.2.2.2 [2] 0 (by decide) (by decide)
      (by intro k hk; omega) (by decide)
    simpa using this

/-- Claim C9: every payload shorter than 3 bytes decodes to the fixed
parse error "payload too short for ASTERIX" with an empty block list. -/
theorem claim_C9 (p : List Nat) (h : p.length < 3) :
    decodeAsterixMessage p =
      { category := 0, length := 0, dataBlocks := [],
        parseError := some "payload too short for ASTERIX", unsupported := false } := by
  simp only [decodeAsterixMessage, if_pos h]

/-- Closed instance of C9 at the empty payload. -/
theorem claim_C9_witness :
    decodeAsterixMessage [] =
      { category := 0, length := 0, dataBlocks := [],
        parseError := some "payload too short for ASTERIX", unsupported := false } :=
  claim_C9 [] (by decide)

/-- Counterexample to C6 as stated: on the 1-byte payload `[5]` the decoder
fails, but reports category 0 rather than byte 0 of the payload (which is 5). -/
theorem claim_C6_counterexample :
    (decodeAsterixMessage [5]).parseError.isSome = true ∧
    (decodeAsterixMessage [5]).category = 0 ∧
    [5].getD 0 0 = 5 ∧
    (decodeAsterixMessage [5]).category ≠ [5].getD 0 0 := by
  refine ⟨rfl, rfl, rfl, by decide⟩

/-- Claim C6 (amended): for every payload of length at least 3 the result
carries category = byte 0 and declared length = big-endian bytes 1-2
(also on failure); for payloads shorter than 3 bytes the decoder fails
with category and declared length reported as 0. -/
theorem claim_C6_amended (p : List Nat) :
    (3 ≤ p.length →
      (decodeAsterixMessage p).category = p.getD 0 0 ∧
      (decodeAsterixMessage p).length = u16be (p.getD 1 0) (p.getD 2 0)) ∧
    (p.length < 3 →
      (decodeAsterixMessage p).category = 0 ∧
      (decodeAsterixMessage p).length = 0 ∧
      (decodeAsterixMessage p).parseError.isSome = true) := by
  constructor
  · intro h
    simp only [decodeAsterixMessage, if_neg (by omega : ¬ p.length < 3)]
    split_ifs <;> exact ⟨by trivial, by trivial⟩
  · intro h
    simp [decodeAsterixMessage, if_pos h]

/-- Closed instance of C6 (amended) at a valid and a too-short payload. -/
theorem claim_C6_witness :
    (decodeAsterixMessage [1, 0, 3]).category = 1 ∧
    (decodeAsterixMessage [1, 0, 3]).length = 3 ∧
    (decodeAsterixMessage [0]).category = 0 := by
  have h1 := (claim_C6_amended [1, 0, 3]).1 (by decide)
  have h2 := (claim_C6_amended [0]).2 (by decide)
  exact ⟨by simpa using h1.1, by simpa using h1.2, h2.1⟩

/-- Claim C10: on any non-empty slice the FSPEC parser returns at least one
byte and `decodeDataBlock` succeeds consuming at least one byte, so the
block loop never produces an error or a zero-byte iteration: for every
payload passing header validation the decoder's parse error is `none`, and
the only parse errors ever produced are the too-short and invalid-length
diagnostics. -/
theorem claim_C10 :
    (∀ data : List Nat, data ≠ [] → 1 ≤ (parseFSPEC data).2) ∧
    (∀ (data : List Nat) (category : Nat), data ≠ [] →
       ∃ blk n, decodeDataBlock data category = Except.ok (blk, n) ∧ 1 ≤ n) ∧
    (∀ (payload : List Nat) (msgLen category fuel offset blockNum : Nat)
       (blocks : List Block),
       (decodeBlocks payload msgLen category fuel offset blockNum blocks).2 = none) ∧
    (∀ p : List Nat, 3 ≤ p.length → 3 ≤ u16be (p.getD 1 0) (p.getD 2 0) →
       u16be (p.getD 1 0) (p.getD 2 0) ≤ p.length →
       (decodeAsterixMessage p).parseError = none) ∧
    (∀ p : List Nat,
       (decodeAsterixMessage p).parseError = none ∨
       (decodeAsterixMessage p).parseError = some "payload too short for ASTERIX" ∨
       (decodeAsterixMessage p).parseError =
         some ("invalid length field: " ++ toString (u16be (p.getD 1 0) (p.getD 2 0)) ++
               " (payload size: " ++ toString p.length ++ ")")) := by
  refine ⟨fun data h => parseFSPEC_pos data h, ?_, ?_, ?_, ?_⟩
  · intro data category h
    obtain ⟨blk, n, hok, h1, _⟩ := decodeDataBlock_ok data category h
    exact ⟨blk, n, hok, h1⟩
  · exact fun p m c f o b bl => decodeBlocks_none p m c f o b bl
  · intro p h1 h2 h3
    simp only [decodeAsterixMessage, if_neg (by omega : ¬ p.length < 3)]
    rw [if_neg (by omega :
      ¬ (u16be (p.getD 1 0) (p.getD 2 0) < 3 ∨
         p.length < u16be (p.getD 1 0) (p.getD 2 0)))]
    exact decodeBlocks_none p _ _ _ 3 0 []
  · intro p
    by_cases h : p.length < 3
    · right; left
      simp [decodeAsterixMessage, if_pos h]
    · simp only [decodeAsterixMessage, if_neg h]
      split_ifs with h2
      · right; right; rfl
      · left
        exact decodeBlocks_none p _ _ _ 3 0 []

/-- Closed instance of C10's conditional parts. -/
theorem claim_C10_witness :
    1 ≤ (parseFSPEC [2]).2 ∧
    (∃ blk n, decodeDataBlock [2] 48 = Except.ok (blk, n) ∧ 1 ≤ n) ∧
    (decodeAsterixMessage [48, 0, 3]).parseError = none := by
  refine ⟨claim_C10.1 [2] (by simp), claim_C10.2.1 [2] 48 (by simp), ?_⟩
  exact claim_C10.2.2.2.1 [48, 0, 3] (by decide) (by decide) (by decide)

/-- Claim C5: the explicit bounds that make every decoding loop finite and
every slice access in-bounds: the FSPEC length is at most 11 and at most
the input length, the estimator returns at most 20 and at most the input
length, every data item consumes at most the remaining bytes, every
successful block consumes between 1 byte and the whole slice, and the
decoder produces at most one block per payload byte; the embedded decoder
is a total function, so every input yields a structured result. -/
theorem claim_C5 :
    (∀ data : List Nat, (parseFSPEC data).2 ≤ 11 ∧ (parseFSPEC data).2 ≤ data.length) ∧
    (∀ data : List Nat, estimateFieldSize data ≤ 20 ∧ estimateFieldSize data ≤ data.length) ∧
    (∀ (data : List Nat) (category frn : Nat),
       (decodeDataItem data category frn).2.2 ≤ data.length) ∧
    (∀ (data : List Nat) (category : Nat) (blk : Block) (n : Nat),
       decodeDataBlock data category = Except.ok (blk, n) → 1 ≤ n ∧ n ≤ data.length) ∧
    (∀ p : List Nat, (decodeAsterixMessage p).dataBlocks.length ≤ p.length) := by
  refine ⟨?_, ?_, ?_, ?_, ?_⟩
  · exact fun data => ⟨parseFSPEC_le_11 data, parseFSPEC_len_le data⟩
  · exact fun data => ⟨estimateFieldSize_le_20 data, estimateFieldSize_le data⟩
  · exact fun data category frn => decodeDataItem_le data category frn
  · intro data category blk n hok
    by_cases hne : data = []
    · subst hne
      simp [decodeDataBlock] at hok
    · obtain ⟨blk2, n2, hok2, h1, h2⟩ := decodeDataBlock_ok data category hne
      rw [hok] at hok2
      have hn : n2 = n := congrArg Prod.snd (Except.ok.inj hok2).symm
      exact ⟨hn ▸ h1, hn ▸ h2⟩
  · intro p
    by_cases h : p.length < 3
    · simp [decodeAsterixMessage, if_pos h]
    · simp only [decodeAsterixMessage, if_neg h]
      split_ifs with h2
      · simp
      · have hle := decodeBlocks_len p (u16be (p.getD 1 0) (p.getD 2 0))
          (p.getD 0 0) (u16be (p.getD 1 0) (p.getD 2 0)) 3 0 []
        simp only [List.length_nil, Nat.zero_add] at hle
        dsimp only
        omega

/-- Closed instance of C5's conditional part: the single-FSPEC-byte block
`[2]` decodes successfully consuming exactly one byte. -/
theorem claim_C5_witness :
    1 ≤ 1 ∧ 1 ≤ ([2] : List Nat).length :=
  claim_C5.2.2.2.1 [2] 48 { fspec := "Ag==", dataItems := [] } 1 rfl

/-- Counterexample to C2 as stated: block `[0x08, 0xAA]` of category 48
declares the flight-level field (FRN 5, declared size 2) with only one
byte remaining after the FSPEC; the field is not skipped - an entry is
recorded under the fallback name `I048_005` and the offset advances. -/
theorem claim_C2_counterexample :
    decodeDataBlock [8, 170] 48 =
      Except.ok
        ({ fspec := "CA==", dataItems := [("I048_005", FieldValue.vStr "qg==")] }, 2) ∧
    (([("I048_005", FieldValue.vStr "qg==")] : List (String × FieldValue)).lookup
       "I048_005" = some (FieldValue.vStr "qg==")) ∧
    (2 : Nat) ≠ 1 := by
  exact ⟨rfl, rfl, by decide⟩

/-- Claim C2 (amended): a present field is silently skipped (no entry, no
error, offset unchanged) exactly when zero bytes remain at its position;
when at least one byte remains, the decoder always consumes between 1 byte
and the remaining count (recording an entry instead of skipping), and a
non-empty block always decodes cleanly with no error. -/
theorem claim_C2_amended :
    (∀ category frn : Nat, (decodeDataItem [] category frn).2.2 = 0) ∧
    (∀ (data : List Nat) (category frn : Nat), data ≠ [] →
       1 ≤ (decodeDataItem data category frn).2.2 ∧
       (decodeDataItem data category frn).2.2 ≤ data.length) ∧
    (∀ (data : List Nat) (category fspecByte bits frn offset : Nat)
       (items : List (String × FieldValue)), data.length ≤ offset →
       processBits data category fspecByte bits frn offset items =
         (offset, frn + bits, items)) ∧
    (∀ (data : List Nat) (category : Nat), data ≠ [] →
       ∃ blk n, decodeDataBlock data category = Except.ok (blk, n)) := by
  refine ⟨fun category frn => decodeDataItem_nil category frn, ?_, ?_, ?_⟩
  · intro data category frn h
    exact ⟨decodeDataItem_pos data category frn h, decodeDataItem_le data category frn⟩
  · exact fun data category fspecByte bits frn offset items h =>
      processBits_skip data category fspecByte bits frn offset items h
  · intro data category h
    obtain ⟨blk, n, hok, _, _⟩ := decodeDataBlock_ok data category h
    exact ⟨blk, n, hok⟩

/-- Closed instance of C2 (amended): with one byte remaining the
flight-level field consumes that byte instead of being skipped, the skip
branch leaves state untouched on an exhausted slice, and a one-byte block
decodes cleanly. -/
theorem claim_C2_witness :
    (decodeDataItem [] 48 5).2.2 = 0 ∧
    (1 ≤ (decodeDataItem [170] 48 5).2.2 ∧
     (decodeDataItem [170] 48 5).2.2 ≤ ([170] : List Nat).length) ∧
    processBits [5] 48 8 7 1 1 [] = (1, 8, []) ∧
    (∃ blk n, decodeDataBlock [2] 48 = Except.ok (blk, n)) := by
  refine ⟨claim_C2_amended.1 48 5, claim_C2_amended.2.1 [170] 48 5 (by simp), ?_, ?_⟩
  · exact claim_C2_amended.2.2.1 [5] 48 8 7 1 1 [] (by simp)
  · exact claim_C2_amended.2.2.2 [2] 48 (by simp)

/-- The 48 bits of a 6-byte field read as one big-endian natural number
(the specification's view of the input). -/
def beBits48 (d : List Nat) : Nat := d.foldl (fun acc b => acc * 256 + b) 0

/-- Modelled from the spec's wording for the aircraft-identity decoder:
the `k`-th (0-based, most-significant first) of the eight consecutive
6-bit groups of the 48 input bits. -/
def specGroup (d : List Nat) (k : Nat) : Nat := beBits48 d / 2 ^ (42 - 6 * k) % 64

/-- The specification's reading of `decodeAircraftID`: split the 48 input
bits MSB-first into eight 6-bit groups, map each through the fixed
alphabet, and trim trailing spaces. -/
def specAircraftID (d : List Nat) : String :=
  String.mk (trimTrailingSpaces
    (((List.range 8).map (fun k => specGroup d k)).map (fun i => acftChars.getD i '?')))

theorem lorShift4 : ∀ a, a < 4 → ∀ b, b < 16 → (a <<< 4) ||| b = a * 16 + b := by decide

theorem lorShift2 : ∀ a, a < 16 → ∀ b, b < 4 → (a <<< 2) ||| b = a * 4 + b := by decide


theorem specGroup0_eq (d0 d1 d2 d3 d4 d5 : Nat) (h0 : d0 < 256) (h1 : d1 < 256) (h2 : d2 < 256) (h3 : d3 < 256) (h4 : d4 < 256) (h5 : d5 < 256) :
    specGroup [d0, d1, d2, d3, d4, d5] 0 = (d0 >>> 2) &&& 0x3F := by
  have e1 : d0 >>> 2 = d0 / 4 := Nat.shiftRight_eq_div_pow d0 2
  have e2 : d0 / 4 &&& 0x3F = d0 / 4 % 64 := Nat.and_pow_two_sub_one_eq_mod _ 6
  rw [e1, e2]
  have hN : beBits48 [d0, d1, d2, d3, d4, d5] =
      ((((d0 * 256 + d1) * 256 + d2) * 256 + d3) * 256 + d4) * 256 + d5 := by
    simp [beBits48]
  have hs : specGroup [d0, d1, d2, d3, d4, d5] 0 = beBits48 [d0, d1, d2, d3, d4, d5] / 4398046511104 % 64 := by
    norm_num [specGroup]
  rw [hs, hN]
  omega

theorem specGroup1_eq (d0 d1 d2 d3 d4 d5 : Nat) (h0 : d0 < 256) (h1 : d1 < 256) (h2 : d2 < 256) (h3 : d3 < 256) (h4 : d4 < 256) (h5 : d5 < 256) :
    specGroup [d0, d1, d2, d3, d4, d5] 1 = ((d0 &&& 0x03) <<< 4) ||| ((d1 >>> 4) &&& 0x0F) := by
  have e1 : d0 &&& 0x03 = d0 % 4 := Nat.and_pow_two_sub_one_eq_mod d0 2
  have e2 : d1 >>> 4 = d1 / 16 := Nat.shiftRight_eq_div_pow d1 4
  have e3 : d1 / 16 &&& 0x0F = d1 / 16 % 16 := Nat.and_pow_two_sub_one_eq_mod _ 4
  have e4 : ((d0 % 4) <<< 4) ||| (d1 / 16 % 16) = (d0 % 4) * 16 + d1 / 16 % 16 :=
    lorShift4 (d0 % 4) (Nat.mod_lt _ (by norm_num)) (d1 / 16 % 16) (Nat.mod_lt _ (by norm_num))
  rw [e1, e2, e3, e4]
  have hN : beBits48 [d0, d1, d2, d3, d4, d5] =
      ((((d0 * 256 + d1) * 256 + d2) * 256 + d3) * 256 + d4) * 256 + d5 := by
    simp [beBits48]
  have hs : specGroup [d0, d1, d2, d3, d4, d5] 1 = beBits48 [d0, d1, d2, d3, d4, d5] / 68719476736 % 64 := by
    norm_num [specGroup]
  rw [hs, hN]
  omega

theorem specGroup2_eq (d0 d1 d2 d3 d4 d5 : Nat) (h0 : d0 < 256) (h1 : d1 < 256) (h2 : d2 < 256) (h3 : d3 < 256) (h4 : d4 < 256) (h5 : d5 < 256) :
    specGroup [d0, d1, d2, d3, d4, d5] 2 = ((d1 &&& 0x0F) <<< 2) ||| ((d2 >>> 6) &&& 0x03) := by
  have e1 : d1 &&& 0x0F = d1 % 16 := Nat.and_pow_two_sub_one_eq_mod d1 4
  have e2 : d2 >>> 6 = d2 / 64 := Nat.shiftRight_eq_div_pow d2 6
  have e3 : d2 / 64 &&& 0x03 = d2 / 64 % 4 := Nat.and_pow_two_sub_one_eq_mod _ 2
  have e4 : ((d1 % 16) <<< 2) ||| (d2 / 64 % 4) = (d1 % 16) * 4 + d2 / 64 % 4 :=
    lorShift2 (d1 % 16) (Nat.mod_lt _ (by norm_num)) (d2 / 64 % 4) (Nat.mod_lt _ (by norm_num))
  rw [e1, e2, e3, e4]
  have hN : beBits48 [d0, d1, d2, d3, d4, d5] =
      ((((d0 * 256 + d1) * 256 + d2) * 256 + d3) * 256 + d4) * 256 + d5 := by
    simp [beBits48]
  have hs : specGroup [d0, d1, d2, d3, d4, d5] 2 = beBits48 [d0, d1, d2, d3, d4, d5] / 1073741824 % 64 := by
    norm_num [specGroup]
  rw [hs, hN]
  omega

theorem specGroup3_eq (d0 d1 d2 d3 d4 d5 : Nat) (h0 : d0 < 256) (h1 : d1 < 256) (h2 : d2 < 256) (h3 : d3 < 256) (h4 : d4 < 256) (h5 : d5 < 256) :
    specGroup [d0, d1, d2, d3, d4, d5] 3 = d2 &&& 0x3F := by
  have e1 : d2 &&& 0x3F = d2 % 64 := Nat.and_pow_two_sub_one_eq_mod d2 6
  rw [e1]
  have hN : beBits48 [d0, d1, d2, d3, d4, d5] =
      ((((d0 * 256 + d1) * 256 + d2) * 256 + d3) * 256 + d4) * 256 + d5 := by
    simp [beBits48]
  have hs : specGroup [d0, d1, d2, d3, d4, d5] 3 = beBits48 [d0, d1, d2, d3, d4, d5] / 16777216 % 64 := by
    norm_num [specGroup]
  rw [hs, hN]
  omega

theorem specGroup4_eq (d0 d1 d2 d3 d4 d5 : Nat) (h0 : d0 < 256) (h1 : d1 < 256) (h2 : d2 < 256) (h3 : d3 < 256) (h4 : d4 < 256) (h5 : d5 < 256) :
    specGroup [d0, d1, d2, d3, d4, d5] 4 = (d3 >>> 2) &&& 0x3F := by
  have e1 : d3 >>> 2 = d3 / 4 := Nat.shiftRight_eq_div_pow d3 2
  have e2 : d3 / 4 &&& 0x3F = d3 / 4 % 64 := Nat.and_pow_two_sub_one_eq_mod _ 6
  rw [e1, e2]
  have hN : beBits48 [d0, d1, d2, d3, d4, d5] =
      ((((d0 * 256 + d1) * 256 + d2) * 256 + d3) * 256 + d4) * 256 + d5 := by
    simp [beBits48]
  have hs : specGroup [d0, d1, d2, d3, d4, d5] 4 = beBits48 [d0, d1, d2, d3, d4, d5] / 262144 % 64 := by
    norm_num [specGroup]
  rw [hs, hN]
  omega

theorem specGroup5_eq (d0 d1 d2 d3 d4 d5 : Nat) (h0 : d0 < 256) (h1 : d1 < 256) (h2 : d2 < 256) (h3 : d3 < 256) (h4 : d4 < 256) (h5 : d5 < 256) :
    specGroup [d0, d1, d2, d3, d4, d5] 5 = ((d3 &&& 0x03) <<< 4) ||| ((d4 >>> 4) &&& 0x0F) := by
  have e1 : d3 &&& 0x03 = d3 % 4 := Nat.and_pow_two_sub_one_eq_mod d3 2
  have e2 : d4 >>> 4 = d4 / 16 := Nat.shiftRight_eq_div_pow d4 4
  have e3 : d4 / 16 &&& 0x0F = d4 / 16 % 16 := Nat.and_pow_two_sub_one_eq_mod _ 4
  have e4 : ((d3 % 4) <<< 4) ||| (d4 / 16 % 16) = (d3 % 4) * 16 + d4 / 16 % 16 :=
    lorShift4 (d3 % 4) (Nat.mod_lt _ (by norm_num)) (d4 / 16 % 16) (Nat.mod_lt _ (by norm_num))
  rw [e1, e2, e3, e4]
  have hN : beBits48 [d0, d1, d2, d3, d4, d5] =
      ((((d0 * 256 + d1) * 256 + d2) * 256 + d3) * 256 + d4) * 256 + d5 := by
    simp [beBits48]
  have hs : specGroup [d0, d1, d2, d3, d4, d5] 5 = beBits48 [d0, d1, d2, d3, d4, d5] / 4096 % 64 := by
    norm_num [specGroup]
  rw [hs, hN]
  omega

theorem specGroup6_eq (d0 d1 d2 d3 d4 d5 : Nat) (h0 : d0 < 256) (h1 : d1 < 256) (h2 : d2 < 256) (h3 : d3 < 256) (h4 : d4 < 256) (h5 : d5 < 256) :
    specGroup [d0, d1, d2, d3, d4, d5] 6 = ((d4 &&& 0x0F) <<< 2) ||| ((d5 >>> 6) &&& 0x03) := by
  have e1 : d4 &&& 0x0F = d4 % 16 := Nat.and_pow_two_sub_one_eq_mod d4 4
  have e2 : d5 >>> 6 = d5 / 64 := Nat.shiftRight_eq_div_pow d5 6
  have e3 : d5 / 64 &&& 0x03 = d5 / 64 % 4 := Nat.and_pow_two_sub_one_eq_mod _ 2
  have e4 : ((d4 % 16) <<< 2) ||| (d5 / 64 % 4) = (d4 % 16) * 4 + d5 / 64 % 4 :=
    lorShift2 (d4 % 16) (Nat.mod_lt _ (by norm_num)) (d5 / 64 % 4) (Nat.mod_lt _ (by norm_num))
  rw [e1, e2, e3, e4]
  have hN : beBits48 [d0, d1, d2, d3, d4, d5] =
      ((((d0 * 256 + d1) * 256 + d2) * 256 + d3) * 256 + d4) * 256 + d5 := by
    simp [beBits48]
  have hs : specGroup [d0, d1, d2, d3, d4, d5] 6 = beBits48 [d0, d1, d2, d3, d4, d5] / 64 % 64 := by
    norm_num [specGroup]
  rw [hs, hN]
  omega

theorem specGroup7_eq (d0 d1 d2 d3 d4 d5 : Nat) (h0 : d0 < 256) (h1 : d1 < 256) (h2 : d2 < 256) (h3 : d3 < 256) (h4 : d4 < 256) (h5 : d5 < 256) :
    specGroup [d0, d1, d2, d3, d4, d5] 7 = d5 &&& 0x3F := by
  have e1 : d5 &&& 0x3F = d5 % 64 := Nat.and_pow_two_sub_one_eq_mod d5 6
  rw [e1]
  have hN : beBits48 [d0, d1, d2, d3, d4, d5] =
      ((((d0 * 256 + d1) * 256 + d2) * 256 + d3) * 256 + d4) * 256 + d5 := by
    simp [beBits48]
  have hs : specGroup [d0, d1, d2, d3, d4, d5] 7 = beBits48 [d0, d1, d2, d3, d4, d5] % 64 := by
    norm_num [specGroup]
  rw [hs, hN]
  omega
theorem trimTrailingSpaces_length_le (l : List Char) :
    (trimTrailingSpaces l).length ≤ l.length := by
  unfold trimTrailingSpaces
  have h := (List.dropWhile_sublist (l := l.reverse) (fun c => c = ' ')).length_le
  simp at h ⊢
  omega

/-- Claim C8: on every 6-byte input the aircraft-identity decoder equals
the specification reading (split the 48 bits MSB-first into eight 6-bit
groups, map through the fixed 64-entry alphabet, trim trailing spaces),
and the result has at most 8 characters. -/
theorem claim_C8 (d : List Nat) (hlen : d.length = 6) (hb : ∀ b ∈ d, b < 256) :
    decodeAircraftID d = specAircraftID d ∧ (decodeAircraftID d).length ≤ 8 := by
  rcases d with _ | ⟨d0, d⟩
  · simp at hlen
  rcases d with _ | ⟨d1, d⟩
  · simp at hlen
  rcases d with _ | ⟨d2, d⟩
  · simp at hlen
  rcases d with _ | ⟨d3, d⟩
  · simp at hlen
  rcases d with _ | ⟨d4, d⟩
  · simp at hlen
  rcases d with _ | ⟨d5, d⟩
  · simp at hlen
  rcases d with _ | ⟨d6, d⟩
  case cons => simp at hlen
  have h0 : d0 < 256 := hb d0 (by simp)
  have h1 : d1 < 256 := hb d1 (by simp)
  have h2 : d2 < 256 := hb d2 (by simp)
  have h3 : d3 < 256 := hb d3 (by simp)
  have h4 : d4 < 256 := hb d4 (by simp)
  have h5 : d5 < 256 := hb d5 (by simp)
  have hg0 := specGroup0_eq d0 d1 d2 d3 d4 d5 h0 h1 h2 h3 h4 h5
  have hg1 := specGroup1_eq d0 d1 d2 d3 d4 d5 h0 h1 h2 h3 h4 h5
  have hg2 := specGroup2_eq d0 d1 d2 d3 d4 d5 h0 h1 h2 h3 h4 h5
  have hg3 := specGroup3_eq d0 d1 d2 d3 d4 d5 h0 h1 h2 h3 h4 h5
  have hg4 := specGroup4_eq d0 d1 d2 d3 d4 d5 h0 h1 h2 h3 h4 h5
  have hg5 := specGroup5_eq d0 d1 d2 d3 d4 d5 h0 h1 h2 h3 h4 h5
  have hg6 := specGroup6_eq d0 d1 d2 d3 d4 d5 h0 h1 h2 h3 h4 h5
  have hg7 := specGroup7_eq d0 d1 d2 d3 d4 d5 h0 h1 h2 h3 h4 h5
  have hr : List.range 8 = [0, 1, 2, 3, 4, 5, 6, 7] := rfl
  constructor
  · simp only [specAircraftID, hr, List.map_cons, List.map_nil,
      hg0, hg1, hg2, hg3, hg4, hg5, hg6, hg7]
    simp only [decodeAircraftID]
    rw [if_neg (by simp)]
    simp only [List.getD_cons_zero, List.getD_cons_succ, List.map_cons, List.map_nil]
  · simp only [decodeAircraftID]
    rw [if_neg (by simp)]
    simp only [List.getD_cons_zero, List.getD_cons_succ]
    have hlen8 := trimTrailingSpaces_length_le
      (([(d0 >>> 2) &&& 0x3F,
         ((d0 &&& 0x03) <<< 4) ||| ((d1 >>> 4) &&& 0x0F),
         ((d1 &&& 0x0F) <<< 2) ||| ((d2 >>> 6) &&& 0x03),
         d2 &&& 0x3F,
         (d3 >>> 2) &&& 0x3F,
         ((d3 &&& 0x03) <<< 4) ||| ((d4 >>> 4) &&& 0x0F),
         ((d4 &&& 0x0F) <<< 2) ||| ((d5 >>> 6) &&& 0x03),
         d5 &&& 0x3F] : List Nat).map (fun i => acftChars.getD i '?'))
    simp at hlen8 ⊢
    omega

/-- Closed instance of C8 at the all-zero 6-byte input. -/
theorem claim_C8_witness :
    ([0, 0, 0, 0, 0, 0] : List Nat).length = 6 ∧
    decodeAircraftID [0, 0, 0, 0, 0, 0] = specAircraftID [0, 0, 0, 0, 0, 0] ∧
    (decodeAircraftID [0, 0, 0, 0, 0, 0]).length ≤ 8 := by
  have h := claim_C8 [0, 0, 0, 0, 0, 0] (by decide) (by decide)
  exact ⟨by decide, h.1, h.2⟩
